import Mathlib

/-!
Shallow embedding of the i-ching repository's core (src/core/reading.rs,
src/core/divination.rs, src/cli.rs), together with theorems settling the
frozen claims about its specification.

Machine integers (`u8`) are modelled as `Nat`; every value produced by the
embedded code stays far below `2^8` except where noted.  Fallible Rust code
(`Result`, `Option`, `panic!` branches) is modelled with `Except`/`Option`.
-/

namespace IChing

/-- Line age, from reading.rs `enum Age`. -/
inductive Age
  | Young
  | Old
  deriving DecidableEq

/-- Line polarity, from reading.rs `enum Polarity`. -/
inductive Polarity
  | Yang
  | Yin
  deriving DecidableEq

/-- A single line of a figure, from reading.rs `struct Line`. -/
structure Line where
  age : Age
  polarity : Polarity
  deriving DecidableEq

/-- A reading: six lines (bottom to top) plus an optional question, from
reading.rs `struct Reading`.  The Rust array `[Line; 6]` is modelled as a
function out of `Fin 6`. -/
structure Reading where
  lines : Fin 6 → Line
  question : Option String

instance : DecidableEq Reading := fun a b =>
  decidable_of_iff (a.lines = b.lines ∧ a.question = b.question) (by
    cases a; cases b; simp)

instance {ε α : Type} [DecidableEq ε] [DecidableEq α] : DecidableEq (Except ε α)
  | Except.error e, Except.error f =>
    decidable_of_iff (e = f) (by simp)
  | Except.error _, Except.ok _ => isFalse (by simp)
  | Except.ok _, Except.error _ => isFalse (by simp)
  | Except.ok a, Except.ok b =>
    decidable_of_iff (a = b) (by simp)

/-- Error kinds of the repository, modelling the distinct `anyhow!` error
constructions of the source.  The spec's error taxonomy (§7) additionally
names an `OutOfRange(value)` kind; the constructor is included here so that
claims about it can be stated, but no embedded source function ever
constructs it. -/
inductive IErr
  | InvalidLineCode (value : Nat)
  | UnrecognizedInput (text : String)
  | OutOfRange (value : Nat)
  | InternalPrimaryMismatch (got expected : Nat)
  | InternalTransformedMismatch (got expected : Nat)
  | InternalMissingChangingLines
  deriving DecidableEq

/-- reading.rs `Line::traditional_number`. -/
def Line.traditional_number (l : Line) : Nat :=
  match l.age, l.polarity with
  | Age.Old, Polarity.Yin => 6
  | Age.Young, Polarity.Yang => 7
  | Age.Young, Polarity.Yin => 8
  | Age.Old, Polarity.Yang => 9

/-- reading.rs `Line::from_traditional_number`; the `Err` branch carries the
offending value (the Rust error message "Invalid line number: {num}"). -/
def Line.from_traditional_number (num : Nat) : Except IErr Line :=
  if num = 6 then Except.ok ⟨Age.Old, Polarity.Yin⟩
  else if num = 7 then Except.ok ⟨Age.Young, Polarity.Yang⟩
  else if num = 8 then Except.ok ⟨Age.Young, Polarity.Yin⟩
  else if num = 9 then Except.ok ⟨Age.Old, Polarity.Yang⟩
  else Except.error (IErr.InvalidLineCode num)

/-- reading.rs `Line::transform`: flip polarity if old, keep if young. -/
def Line.transform (l : Line) : Line :=
  match l.age with
  | Age.Old =>
    ⟨Age.Young,
      match l.polarity with
      | Polarity.Yang => Polarity.Yin
      | Polarity.Yin => Polarity.Yang⟩
  | Age.Young => l

/-- reading.rs `Reading::primary_hexagram`: fold over the six lines adding
`2^i` for a Yang polarity at index `i`, plus one. -/
def Reading.primary_hexagram (r : Reading) : Nat :=
  ((List.finRange 6).foldl
    (fun acc i =>
      acc +
        match (r.lines i).polarity with
        | Polarity.Yang => 2 ^ (i : Nat)
        | Polarity.Yin => 0)
    0) + 1

/-- reading.rs `Reading::has_changing_lines`. -/
def Reading.has_changing_lines (r : Reading) : Bool :=
  (List.finRange 6).any fun i => decide ((r.lines i).age = Age.Old)

/-- reading.rs `Reading::changing_line_positions` (1-indexed, ascending). -/
def Reading.changing_line_positions (r : Reading) : List Nat :=
  (((List.finRange 6).filter fun i => decide ((r.lines i).age = Age.Old)).map
    fun i => (i : Nat) + 1)

/-- The per-line map applied by reading.rs `Reading::transformed_hexagram`
(line 135: `self.lines.map(|line| line.transform())`); this is the total
`transform(Figure) -> Figure` operation of the spec (§4.1). -/
def Reading.transform_lines (r : Reading) : Reading :=
  ⟨fun i => (r.lines i).transform, r.question⟩

/-- reading.rs `Reading::transformed_hexagram`: `none` when there are no
changing lines, otherwise the per-line transform. -/
def Reading.transformed_hexagram (r : Reading) : Option Reading :=
  if r.has_changing_lines = false then none
  else some r.transform_lines

/-- reading.rs `Reading::traditional_numbers`. -/
def Reading.traditional_numbers (r : Reading) : Fin 6 → Nat :=
  fun i => (r.lines i).traditional_number

/-! ## Diviner (src/core/divination.rs) -/

/-- divination.rs `Diviner::number_to_line`: the `panic!` branch for a value
outside {6,7,8,9} is modelled as `none`. -/
def number_to_line (number : Nat) : Option Line :=
  if number = 6 then some ⟨Age.Old, Polarity.Yin⟩
  else if number = 7 then some ⟨Age.Young, Polarity.Yang⟩
  else if number = 8 then some ⟨Age.Young, Polarity.Yin⟩
  else if number = 9 then some ⟨Age.Old, Polarity.Yang⟩
  else none

/-- The coin total inside divination.rs `Diviner::cast_line`:
`(0..3).map(|_| if rng.gen_bool(0.5) { 3 } else { 2 }).sum()`, as a
deterministic function of the three binary draw outcomes (`true` ↦ 3,
`false` ↦ 2). -/
def coin_sum (d : Fin 3 → Bool) : Nat :=
  ((List.finRange 3).map fun i => if d i then 3 else 2).sum

/-- divination.rs `Diviner::cast_line` as a deterministic function of the
three binary draw outcomes. -/
def cast_line_outcome (d : Fin 3 → Bool) : Option Line :=
  number_to_line (coin_sum d)

/-- divination.rs `Diviner::cast_reading_from_numbers`: convert the six
codes in index order, stopping at the first invalid one. -/
def cast_reading_from_numbers (numbers : Fin 6 → Nat) (question : Option String) :
    Except IErr Reading := do
  let l0 ← Line.from_traditional_number (numbers 0)
  let l1 ← Line.from_traditional_number (numbers 1)
  let l2 ← Line.from_traditional_number (numbers 2)
  let l3 ← Line.from_traditional_number (numbers 3)
  let l4 ← Line.from_traditional_number (numbers 4)
  let l5 ← Line.from_traditional_number (numbers 5)
  pure ⟨![l0, l1, l2, l3, l4, l5], question⟩

/-! ## CLI interpreter (src/cli.rs) -/

/-- cli.rs `create_reading_from_hexagram_number`: all lines Young, polarity
bit `i` taken from `(hexagram_number - 1) >> i & 1`.  The Rust function
wraps the result in `Ok` unconditionally (it performs no range check of its
own); the unconditional `Ok` is dropped here. -/
def create_reading_from_hexagram_number (hexagram_number : Nat) : Reading :=
  let binary_value := hexagram_number - 1
  ⟨fun i =>
    let bit := binary_value / 2 ^ (i : Nat) % 2
    ⟨Age.Young, if bit = 1 then Polarity.Yang else Polarity.Yin⟩,
    none⟩

/-- The line array built by cli.rs `create_changing_reading_from_numbers`
before its consistency checks: at each position the source's polarity bit,
Old when the source and target bits differ and Young when they agree. -/
def changing_lines_for (from_hexagram to_hexagram : Nat) : Fin 6 → Line :=
  let from_binary := from_hexagram - 1
  let to_binary := to_hexagram - 1
  fun i =>
    let from_bit := from_binary / 2 ^ (i : Nat) % 2
    let to_bit := to_binary / 2 ^ (i : Nat) % 2
    let from_polarity := if from_bit = 1 then Polarity.Yang else Polarity.Yin
    let to_polarity := if to_bit = 1 then Polarity.Yang else Polarity.Yin
    if from_polarity ≠ to_polarity then ⟨Age.Old, from_polarity⟩
    else ⟨Age.Young, from_polarity⟩

/-- The reading built by cli.rs `create_changing_reading_from_numbers`
before its consistency checks. -/
def changing_reading (from_hexagram to_hexagram : Nat) : Reading :=
  ⟨changing_lines_for from_hexagram to_hexagram, none⟩

/-- cli.rs `create_changing_reading_from_numbers`, including both
internal-consistency error branches. -/
def create_changing_reading_from_numbers (from_hexagram to_hexagram : Nat) :
    Except IErr Reading :=
  let reading := changing_reading from_hexagram to_hexagram
  if reading.primary_hexagram ≠ from_hexagram then
    Except.error (IErr.InternalPrimaryMismatch reading.primary_hexagram from_hexagram)
  else
    match reading.transformed_hexagram with
    | some transformedReading =>
      if transformedReading.primary_hexagram ≠ to_hexagram then
        Except.error
          (IErr.InternalTransformedMismatch transformedReading.primary_hexagram to_hexagram)
      else Except.ok reading
    | none =>
      if from_hexagram ≠ to_hexagram then Except.error IErr.InternalMissingChangingLines
      else Except.ok reading

/-! ## String machinery used by the interpreter

Rust strings are modelled as `List Char`; `str::trim`, `u8::from_str`,
`str::find`/`split_at` and `str::split(',')` are embedded below. -/

/-- Rust `char::is_whitespace` (the Unicode White_Space property), used by
`str::trim`. -/
def isRustWhitespace (c : Char) : Bool :=
  let n := c.toNat
  decide ((0x09 ≤ n ∧ n ≤ 0x0D) ∨ n = 0x20 ∨ n = 0x85 ∨ n = 0xA0 ∨ n = 0x1680 ∨
    (0x2000 ≤ n ∧ n ≤ 0x200A) ∨ n = 0x2028 ∨ n = 0x2029 ∨ n = 0x202F ∨ n = 0x205F ∨
    n = 0x3000)

/-- Rust `str::trim`: strip whitespace from both ends. -/
def rustTrim (s : List Char) : List Char :=
  ((s.dropWhile isRustWhitespace).reverse.dropWhile isRustWhitespace).reverse

/-- Rust `u8::from_str` (as called by `parse::<u8>()`): an optional leading
`+`, then one or more ASCII digits, value at most 255; anything else is a
parse error (`none`). -/
def parse_u8 (s : List Char) : Option Nat :=
  let digits := match s with
    | '+' :: rest => rest
    | _ => s
  if digits = [] then none
  else if digits.all (fun c => c.isDigit) then
    let v := digits.foldl (fun acc c => acc * 10 + (c.toNat - 48)) 0
    if v ≤ 255 then some v else none
  else none

/-- Rust `str::find(sep)` followed by `split_at` and dropping the separator:
the text before and after the first occurrence of `sep`, or `none` when
`sep` does not occur. -/
def splitAtFirst (sep : List Char) : List Char → Option (List Char × List Char)
  | [] => if sep.isPrefixOf ([] : List Char) then some ([], []) else none
  | c :: rest =>
    if sep.isPrefixOf (c :: rest) then some ([], (c :: rest).drop sep.length)
    else
      match splitAtFirst sep rest with
      | some (pre, post) => some (c :: pre, post)
      | none => none

/-- Rust `str::split(',')` (keeps empty parts, yields one part for the empty
string). -/
def splitOnComma : List Char → List (List Char)
  | [] => [[]]
  | c :: rest =>
    if c = ',' then [] :: splitOnComma rest
    else
      match splitOnComma rest with
      | [] => [[c]]
      | p :: ps => (c :: p) :: ps

/-! ## Glyph lookup (cli.rs `unicode_to_hexagram_number`) -/

/-- Modelled from the spec: the hexagram reference dataset
(`data/hexagrams.json`, loaded by src/core/data.rs) is not under src/.  Per
the spec (§6 and the CLI input grammar) the glyph of record `i` is the
Unicode hexagram character, ䷀ (U+4DC0) for identifier 1 through ䷿
(U+4DFF) for identifier 64. -/
def hexagram_unicode_char (i : Nat) : Char :=
  Char.ofNat (0x4DC0 + (i - 1))

/-- cli.rs `unicode_to_hexagram_number`: scan identifiers 1..=64 in order
and return the first whose record's glyph matches (data-set glyphs
spec-modelled via `hexagram_unicode_char`). -/
def unicode_to_hexagram_number (c : Char) : Option Nat :=
  (((List.range 64).map fun k => k + 1).find? fun i =>
    decide (hexagram_unicode_char i = c))

/-! ## Transition notation (cli.rs `try_parse_changing_hexagram`) -/

/-- The Unicode arrow separator "→" (U+2192), checked first. -/
def arrow_sep : List Char := [Char.ofNat 0x2192]

/-- The two-character ASCII separator "->", checked second. -/
def ascii_sep : List Char := ['-', '>']

/-- The glyph sub-parse of cli.rs `try_parse_changing_hexagram`: both parts
must be single characters resolving to hexagram numbers. -/
def try_unicode_parts (fromPart toPart : List Char) : Except IErr (Option Reading) :=
  match fromPart, toPart with
  | [fromChar], [toChar] =>
    match unicode_to_hexagram_number fromChar, unicode_to_hexagram_number toChar with
    | some fromNum, some toNum =>
      (create_changing_reading_from_numbers fromNum toNum).map some
    | _, _ => Except.ok none
  | _, _ => Except.ok none

/-- One iteration of the separator loop in cli.rs
`try_parse_changing_hexagram`: split at the first occurrence of `sep`, trim
both parts, try the numeric sub-parse (both integers in [1,64]) then the
glyph sub-parse; `ok none` when this separator yields nothing. -/
def try_parse_with_separator (sep input : List Char) : Except IErr (Option Reading) :=
  match splitAtFirst sep input with
  | none => Except.ok none
  | some (fromRaw, toRaw) =>
    let fromPart := rustTrim fromRaw
    let toPart := rustTrim toRaw
    match parse_u8 fromPart, parse_u8 toPart with
    | some fromNum, some toNum =>
      if 1 ≤ fromNum ∧ fromNum ≤ 64 ∧ 1 ≤ toNum ∧ toNum ≤ 64 then
        (create_changing_reading_from_numbers fromNum toNum).map some
      else try_unicode_parts fromPart toPart
    | _, _ => try_unicode_parts fromPart toPart

/-- cli.rs `try_parse_changing_hexagram`: try the Unicode arrow separator,
then the ASCII one. -/
def try_parse_changing_hexagram (input : List Char) : Except IErr (Option Reading) :=
  match try_parse_with_separator arrow_sep input with
  | Except.error e => Except.error e
  | Except.ok (some r) => Except.ok (some r)
  | Except.ok none => try_parse_with_separator ascii_sep input

/-! ## Input resolution (cli.rs `parse_input_and_create_reading`) -/

/-- cli.rs `parse_input_and_create_reading`: trim, try the transition
notation, then a numeric identifier in [1,64], then a single glyph, then
six comma-separated line codes, else fail with the "Invalid input" error
carrying the (trimmed) input text. -/
def parse_input_and_create_reading (input : String) : Except IErr Reading :=
  let inp := rustTrim input.data
  match try_parse_changing_hexagram inp with
  | Except.error e => Except.error e
  | Except.ok (some r) => Except.ok r
  | Except.ok none =>
    match (match parse_u8 inp with
           | some n => if 1 ≤ n ∧ n ≤ 64 then some n else none
           | none => none) with
    | some hexagramNumber => Except.ok (create_reading_from_hexagram_number hexagramNumber)
    | none =>
      match (match inp with
             | [c] => unicode_to_hexagram_number c
             | _ => none) with
      | some hexagramNumber => Except.ok (create_reading_from_hexagram_number hexagramNumber)
      | none =>
        if inp.contains ',' then
          match (splitOnComma inp).mapM (fun part => parse_u8 (rustTrim part)) with
          | some numbers =>
            if numbers.length = 6 ∧ numbers.all (fun n => n ∈ [6, 7, 8, 9]) then
              cast_reading_from_numbers (fun i => numbers.getD (i : Nat) 0) none
            else Except.error (IErr.UnrecognizedInput ⟨inp⟩)
          | none => Except.error (IErr.UnrecognizedInput ⟨inp⟩)
        else Except.error (IErr.UnrecognizedInput ⟨inp⟩)

/-- The subsequent resolution steps of cli.rs
`parse_input_and_create_reading` (numeric identifier, single glyph, six
line codes, else the "Invalid input" error) as a standalone function of the
text, for stating how the interpreter continues when the transition
notation matches a separator but neither sub-parse succeeds. -/
def interpret_subsequent_steps (inp : List Char) : Except IErr Reading :=
  match (match parse_u8 inp with
         | some n => if 1 ≤ n ∧ n ≤ 64 then some n else none
         | none => none) with
  | some hexagramNumber => Except.ok (create_reading_from_hexagram_number hexagramNumber)
  | none =>
    match (match inp with
           | [c] => unicode_to_hexagram_number c
           | _ => none) with
    | some hexagramNumber => Except.ok (create_reading_from_hexagram_number hexagramNumber)
    | none =>
      if inp.contains ',' then
        match (splitOnComma inp).mapM (fun part => parse_u8 (rustTrim part)) with
        | some numbers =>
          if numbers.length = 6 ∧ numbers.all (fun n => n ∈ [6, 7, 8, 9]) then
            cast_reading_from_numbers (fun i => numbers.getD (i : Nat) 0) none
          else Except.error (IErr.UnrecognizedInput ⟨inp⟩)
        | none => Except.error (IErr.UnrecognizedInput ⟨inp⟩)
      else Except.error (IErr.UnrecognizedInput ⟨inp⟩)

/-! ## Derived definitions used by the claims -/

/-- The spec's polarity bit (§3): Yang = 1, Yin = 0.  Stated from the
spec's words, for comparison with the source's `primary_hexagram`. -/
def polarity_bit (l : Line) : Nat :=
  match l.polarity with
  | Polarity.Yang => 1
  | Polarity.Yin => 0

/-- Concrete sample figure (all lines Young Yang) for exercising C4. -/
def all_young_yang : Reading :=
  ⟨fun _ => ⟨Age.Young, Polarity.Yang⟩, none⟩

/-- Executable check of the C1 postconditions for one source/target pair. -/
def c1body (S T : Nat) : Bool :=
  ((changing_reading S T).primary_hexagram == S) &&
  (if S = T then !(changing_reading S T).has_changing_lines
   else (changing_reading S T).has_changing_lines &&
     ((changing_reading S T).transform_lines.primary_hexagram == T))

/-- Executable check of the C1 postconditions over all pairs in [1,64]². -/
def c1check : Bool :=
  (List.range 64).all fun a => (List.range 64).all fun b => c1body (a + 1) (b + 1)

/-- Executable check of the C3 properties for one identifier. -/
def c3body (id : Nat) : Bool :=
  ((List.finRange 6).all fun i =>
    ((create_reading_from_hexagram_number id).lines i).age == Age.Young) &&
  ((List.finRange 6).all fun i =>
    (((create_reading_from_hexagram_number id).lines i).polarity == Polarity.Yang) ==
      Nat.testBit (id - 1) (i : Nat)) &&
  ((create_reading_from_hexagram_number id).primary_hexagram == id)

/-- Executable check of the C3 properties over all identifiers in [1,64]. -/
def c3check : Bool :=
  (List.range 64).all fun a => c3body (a + 1)

/-- A valid traditional line code, as the claim states it. -/
def validCode (n : Nat) : Prop := n = 6 ∨ n = 7 ∨ n = 8 ∨ n = 9

instance (n : Nat) : Decidable (validCode n) := by
  unfold validCode
  infer_instance

/-- The code-to-line table as the claim states it: 6 = Old Yin,
7 = Young Yang, 8 = Young Yin, 9 = Old Yang. -/
def code_line (n : Nat) : Line :=
  if n = 6 then ⟨Age.Old, Polarity.Yin⟩
  else if n = 7 then ⟨Age.Young, Polarity.Yang⟩
  else if n = 8 then ⟨Age.Young, Polarity.Yin⟩
  else ⟨Age.Old, Polarity.Yang⟩

/-- Sample code array with an invalid third entry, for exercising C7. -/
def c7_example_codes : Fin 6 → Nat := ![7, 8, 5, 6, 7, 8]

/-- The text contains a transition separator (the Unicode arrow or the
ASCII substitute). -/
def contains_separator (l : List Char) : Bool :=
  (splitAtFirst arrow_sep l).isSome || (splitAtFirst ascii_sep l).isSome

/-- Executable check for C5 over all u8 values: every decimal numeral of a
value outside [1,64] is rejected with `UnrecognizedInput`. -/
def c5check : Bool :=
  (List.range 256).all fun id =>
    decide (1 ≤ id ∧ id ≤ 64) ||
    decide (parse_input_and_create_reading (Nat.repr id) =
      Except.error (IErr.UnrecognizedInput (Nat.repr id)))

/-! ## Helper lemmas -/

theorem foldl_add_map {α : Type} (f : α → Nat) :
    ∀ (l : List α) (n : Nat),
      l.foldl (fun acc a => acc + f a) n = n + (l.map f).sum := by
  intro l
  induction l with
  | nil => intro n; simp
  | cons a t ih =>
    intro n
    simp only [List.foldl_cons, List.map_cons, List.sum_cons, ih]
    omega

theorem primary_hexagram_eq_bit_sum (r : Reading) :
    r.primary_hexagram = 1 + ∑ i : Fin 6, polarity_bit (r.lines i) * 2 ^ (i : Nat) := by
  rw [Reading.primary_hexagram, foldl_add_map, Fin.sum_univ_def]
  have hmap :
      ((List.finRange 6).map fun i =>
        match (r.lines i).polarity with
        | Polarity.Yang => 2 ^ (i : Nat)
        | Polarity.Yin => 0) =
      ((List.finRange 6).map fun i => polarity_bit (r.lines i) * 2 ^ (i : Nat)) := by
    apply List.map_congr_left
    intro i _
    cases h : (r.lines i).polarity <;> simp [polarity_bit, h]
  rw [hmap]
  omega

theorem transform_age_young (l : Line) : l.transform.age = Age.Young := by
  cases l with
  | mk a p => cases a <;> rfl

theorem transform_of_young (l : Line) (h : l.age = Age.Young) : l.transform = l := by
  cases l with
  | mk a p =>
    cases a
    · rfl
    · simp at h

theorem has_changing_lines_false_iff (r : Reading) :
    r.has_changing_lines = false ↔ ∀ i : Fin 6, (r.lines i).age ≠ Age.Old := by
  rw [Reading.has_changing_lines, List.any_eq_false]
  constructor
  · intro h i
    have := h i (List.mem_finRange i)
    simpa using this
  · intro h i _
    simpa using h i

theorem age_young_of_not_old (a : Age) (h : a ≠ Age.Old) : a = Age.Young := by
  cases a
  · rfl
  · exact absurd rfl h

/-! ## Claim theorems -/

/-- Claim C2: for every figure, `primary_hexagram` equals 1 plus the 6-bit
value whose bit `i` (LSB first, bottom to top) is 1 exactly when the line
at index `i` has Yang polarity; and concretely, the figure built from line
codes [7,8,9,6,7,8] has identifier 22 and changing positions [3,4]. -/
theorem claim_C2 :
    (∀ r : Reading,
      r.primary_hexagram = 1 + ∑ i : Fin 6, polarity_bit (r.lines i) * 2 ^ (i : Nat)) ∧
    (cast_reading_from_numbers ![7, 8, 9, 6, 7, 8] none).toOption.map
        (fun r => (r.primary_hexagram, r.changing_line_positions)) =
      some (22, [3, 4]) := by
  constructor
  · exact primary_hexagram_eq_bit_sum
  · decide

/-- Claim C4: the per-line transform operation extended to a whole figure
is total and is a no-op on any figure without changing lines (no Old
line). -/
theorem claim_C4 (r : Reading) (h : r.has_changing_lines = false) :
    r.transform_lines = r := by
  have hages := (has_changing_lines_false_iff r).mp h
  cases r with
  | mk lines q =>
    simp only [Reading.transform_lines]
    congr 1
    funext i
    exact transform_of_young (lines i)
      (age_young_of_not_old (lines i).age (hages i))

/-- Witness for C4 at the all-Young-Yang figure. -/
theorem claim_C4_witness :
    all_young_yang.has_changing_lines = false ∧
      all_young_yang.transform_lines = all_young_yang :=
  ⟨by decide, claim_C4 all_young_yang (by decide)⟩

/-- Claim C6: one application of the transform yields a figure all of whose
lines are Young, hence the twice-transformed figure has no changing
positions and equals the once-transformed figure. -/
theorem claim_C6 (r : Reading) :
    (∀ i : Fin 6, (r.transform_lines.lines i).age = Age.Young) ∧
    r.transform_lines.transform_lines.changing_line_positions = [] ∧
    r.transform_lines.transform_lines = r.transform_lines := by
  refine ⟨fun i => transform_age_young (r.lines i), ?_, ?_⟩
  · simp [Reading.changing_line_positions, List.map_eq_nil_iff, List.filter_eq_nil_iff,
      Reading.transform_lines, transform_age_young]
  · cases r with
    | mk lines q =>
      simp only [Reading.transform_lines]
      congr 1
      funext i
      exact transform_of_young _ (transform_age_young (lines i))

/-- Claim C9: of the 8 equiprobable triples of binary draws inside one line
cast, exactly 1 sums to code 6, 3 to code 7, 3 to code 8 and 1 to code 9,
so the per-line marginal probabilities are exactly 1/8, 3/8, 3/8, 1/8. -/
theorem claim_C9 :
    ((Finset.univ.filter fun d : Fin 3 → Bool => coin_sum d = 6).card = 1 ∧
     (Finset.univ.filter fun d : Fin 3 → Bool => coin_sum d = 7).card = 3 ∧
     (Finset.univ.filter fun d : Fin 3 → Bool => coin_sum d = 8).card = 3 ∧
     (Finset.univ.filter fun d : Fin 3 → Bool => coin_sum d = 9).card = 1 ∧
     (Finset.univ : Finset (Fin 3 → Bool)).card = 8) ∧
    (((Finset.univ.filter fun d : Fin 3 → Bool => coin_sum d = 6).card : ℚ) /
        ((Finset.univ : Finset (Fin 3 → Bool)).card : ℚ) = 1 / 8 ∧
     ((Finset.univ.filter fun d : Fin 3 → Bool => coin_sum d = 7).card : ℚ) /
        ((Finset.univ : Finset (Fin 3 → Bool)).card : ℚ) = 3 / 8 ∧
     ((Finset.univ.filter fun d : Fin 3 → Bool => coin_sum d = 8).card : ℚ) /
        ((Finset.univ : Finset (Fin 3 → Bool)).card : ℚ) = 3 / 8 ∧
     ((Finset.univ.filter fun d : Fin 3 → Bool => coin_sum d = 9).card : ℚ) /
        ((Finset.univ : Finset (Fin 3 → Bool)).card : ℚ) = 1 / 8) := by
  have h6 : (Finset.univ.filter fun d : Fin 3 → Bool => coin_sum d = 6).card = 1 := by decide
  have h7 : (Finset.univ.filter fun d : Fin 3 → Bool => coin_sum d = 7).card = 3 := by decide
  have h8 : (Finset.univ.filter fun d : Fin 3 → Bool => coin_sum d = 8).card = 3 := by decide
  have h9 : (Finset.univ.filter fun d : Fin 3 → Bool => coin_sum d = 9).card = 1 := by decide
  have hall : (Finset.univ : Finset (Fin 3 → Bool)).card = 8 := by decide
  refine ⟨⟨h6, h7, h8, h9, hall⟩, ?_⟩
  rw [h6, h7, h8, h9, hall]
  norm_num

/-- Claim C10: every outcome of the three binary draws gives a coin total
in {6,7,8,9}, so the panic branch of `number_to_line` (modelled as `none`)
is unreachable and a randomized line cast always produces a line. -/
theorem claim_C10 :
    ∀ d : Fin 3 → Bool,
      6 ≤ coin_sum d ∧ coin_sum d ≤ 9 ∧
      number_to_line (coin_sum d) ≠ none ∧
      (cast_line_outcome d).isSome = true := by
  decide

/-- If the reading built by the transition reconciliation satisfies its two
postconditions, neither internal-consistency error branch fires. -/
theorem create_changing_ok (S T : Nat)
    (h1 : (changing_reading S T).primary_hexagram = S)
    (h2 : S ≠ T → (changing_reading S T).has_changing_lines = true)
    (h3 : S ≠ T → (changing_reading S T).transform_lines.primary_hexagram = T)
    (h4 : S = T → (changing_reading S T).has_changing_lines = false) :
    create_changing_reading_from_numbers S T = Except.ok (changing_reading S T) := by
  unfold create_changing_reading_from_numbers
  by_cases hst : S = T
  · subst hst
    have hc := h4 rfl
    simp [Reading.transformed_hexagram, hc, h1]
  · have hc := h2 hst
    have ht := h3 hst
    simp [Reading.transformed_hexagram, hc, h1, ht]

set_option maxRecDepth 100000 in
theorem c1check_true : c1check = true := by rfl

/-- Claim C1: for source and target identifiers S, T in [1,64] the
transition reconciliation returns (without taking either
internal-consistency error branch) the reconciled figure, whose identifier
is S; when S ≠ T it has changing lines and its transform has identifier T,
and when S = T it has no changing lines. -/
theorem claim_C1 :
    ∀ S T : Nat, 1 ≤ S → S ≤ 64 → 1 ≤ T → T ≤ 64 →
      create_changing_reading_from_numbers S T = Except.ok (changing_reading S T) ∧
      (changing_reading S T).primary_hexagram = S ∧
      (S ≠ T → (changing_reading S T).has_changing_lines = true ∧
        (changing_reading S T).transform_lines.primary_hexagram = T) ∧
      (S = T → (changing_reading S T).has_changing_lines = false) := by
  intro S T hS1 hS2 hT1 hT2
  have hb : c1body S T = true := by
    have h := c1check_true
    unfold c1check at h
    rw [List.all_eq_true] at h
    have ha := h (S - 1) (by rw [List.mem_range]; omega)
    rw [List.all_eq_true] at ha
    have hab := ha (T - 1) (by rw [List.mem_range]; omega)
    simp only [] at hab
    have e1 : S - 1 + 1 = S := by omega
    have e2 : T - 1 + 1 = T := by omega
    rw [e1, e2] at hab
    exact hab
  unfold c1body at hb
  rw [Bool.and_eq_true] at hb
  obtain ⟨hp', hrest⟩ := hb
  have hp : (changing_reading S T).primary_hexagram = S := beq_iff_eq.mp hp'
  by_cases hst : S = T
  · rw [if_pos hst] at hrest
    subst hst
    have hc : (changing_reading S S).has_changing_lines = false := by
      simpa using hrest
    exact ⟨create_changing_ok S S hp (fun hne => absurd rfl hne)
        (fun hne => absurd rfl hne) (fun _ => hc),
      hp, fun hne => absurd rfl hne, fun _ => hc⟩
  · rw [if_neg hst, Bool.and_eq_true] at hrest
    obtain ⟨hc, htl'⟩ := hrest
    have htl : (changing_reading S T).transform_lines.primary_hexagram = T :=
      beq_iff_eq.mp htl'
    exact ⟨create_changing_ok S T hp (fun _ => hc) (fun _ => htl)
        (fun heq => absurd heq hst),
      hp, fun _ => ⟨hc, htl⟩, fun heq => absurd heq hst⟩

/-- Witness for C1 at the transition 1→2. -/
theorem claim_C1_witness :
    create_changing_reading_from_numbers 1 2 = Except.ok (changing_reading 1 2) ∧
    (changing_reading 1 2).primary_hexagram = 1 ∧
    ((1 : Nat) ≠ 2 → (changing_reading 1 2).has_changing_lines = true ∧
      (changing_reading 1 2).transform_lines.primary_hexagram = 2) ∧
    ((1 : Nat) = 2 → (changing_reading 1 2).has_changing_lines = false) :=
  claim_C1 1 2 (by decide) (by decide) (by decide) (by decide)

set_option maxRecDepth 100000 in
theorem c3check_true : c3check = true := by rfl

/-- Claim C3: for every identifier in [1,64], the figure built from it has
all six lines Young, its polarity at index i is Yang exactly when bit i
(LSB first) of id-1 is set, and its identifier round-trips back to id. -/
theorem claim_C3 :
    ∀ id : Nat, 1 ≤ id → id ≤ 64 →
      (∀ i : Fin 6, ((create_reading_from_hexagram_number id).lines i).age = Age.Young) ∧
      (∀ i : Fin 6, (((create_reading_from_hexagram_number id).lines i).polarity = Polarity.Yang ↔
        Nat.testBit (id - 1) (i : Nat) = true)) ∧
      (create_reading_from_hexagram_number id).primary_hexagram = id := by
  intro id h1 h2
  have hb : c3body id = true := by
    have h := c3check_true
    unfold c3check at h
    rw [List.all_eq_true] at h
    have ha := h (id - 1) (by rw [List.mem_range]; omega)
    simp only [] at ha
    have e1 : id - 1 + 1 = id := by omega
    rw [e1] at ha
    exact ha
  unfold c3body at hb
  rw [Bool.and_eq_true, Bool.and_eq_true] at hb
  obtain ⟨⟨hA, hB⟩, hC⟩ := hb
  rw [List.all_eq_true] at hA
  rw [List.all_eq_true] at hB
  refine ⟨?_, ?_, beq_iff_eq.mp hC⟩
  · intro i
    exact beq_iff_eq.mp (hA i (List.mem_finRange i))
  · intro i
    have hbit := beq_iff_eq.mp (hB i (List.mem_finRange i))
    rw [← hbit]
    exact beq_iff_eq.symm

/-- Witness for C3 at identifier 22. -/
theorem claim_C3_witness :
    (∀ i : Fin 6, ((create_reading_from_hexagram_number 22).lines i).age = Age.Young) ∧
    (∀ i : Fin 6, (((create_reading_from_hexagram_number 22).lines i).polarity = Polarity.Yang ↔
      Nat.testBit 21 (i : Nat) = true)) ∧
    (create_reading_from_hexagram_number 22).primary_hexagram = 22 :=
  claim_C3 22 (by decide) (by decide)

theorem fromTrad_ok (n : Nat) (h : validCode n) :
    Line.from_traditional_number n = Except.ok (code_line n) := by
  rcases h with h | h | h | h <;> subst h <;> rfl

theorem fromTrad_err (n : Nat) (h : ¬validCode n) :
    Line.from_traditional_number n = Except.error (IErr.InvalidLineCode n) := by
  simp only [validCode, not_or] at h
  obtain ⟨h6, h7, h8, h9⟩ := h
  simp [Line.from_traditional_number, h6, h7, h8, h9]

/-- Claim C7: building a figure from six codes succeeds, with each line
given by the code table, exactly when all codes are in {6,7,8,9}; otherwise
it fails with `InvalidLineCode` carrying the first offending value and no
figure is produced. -/
theorem claim_C7 (numbers : Fin 6 → Nat) (question : Option String) :
    ((∀ i, validCode (numbers i)) →
      cast_reading_from_numbers numbers question =
        Except.ok ⟨fun i => code_line (numbers i), question⟩) ∧
    ((¬ ∀ i, validCode (numbers i)) →
      ∃ k : Fin 6, ¬validCode (numbers k) ∧ (∀ j : Fin 6, j < k → validCode (numbers j)) ∧
        cast_reading_from_numbers numbers question =
          Except.error (IErr.InvalidLineCode (numbers k))) := by
  constructor
  · intro h
    unfold cast_reading_from_numbers
    rw [fromTrad_ok _ (h 0), fromTrad_ok _ (h 1), fromTrad_ok _ (h 2),
      fromTrad_ok _ (h 3), fromTrad_ok _ (h 4), fromTrad_ok _ (h 5)]
    show Except.ok (Reading.mk _ _) = _
    have hvec :
        (![code_line (numbers 0), code_line (numbers 1), code_line (numbers 2),
           code_line (numbers 3), code_line (numbers 4), code_line (numbers 5)]) =
        fun i => code_line (numbers i) := by
      funext i
      fin_cases i <;> rfl
    rw [hvec]
  · intro h
    by_cases h0 : validCode (numbers 0)
    case neg =>
      refine ⟨0, h0, ?_, ?_⟩
      · intro j hj
        exact absurd hj (by simp [Fin.not_lt_zero])
      · unfold cast_reading_from_numbers
        rw [fromTrad_err _ h0]
        rfl
    case pos =>
    by_cases h1 : validCode (numbers 1)
    case neg =>
      refine ⟨1, h1, ?_, ?_⟩
      · intro j hj
        fin_cases j
        · exact h0
        all_goals exact absurd hj (by decide)
      · unfold cast_reading_from_numbers
        rw [fromTrad_ok _ h0, fromTrad_err _ h1]
        rfl
    case pos =>
    by_cases h2 : validCode (numbers 2)
    case neg =>
      refine ⟨2, h2, ?_, ?_⟩
      · intro j hj
        fin_cases j
        · exact h0
        · exact h1
        all_goals exact absurd hj (by decide)
      · unfold cast_reading_from_numbers
        rw [fromTrad_ok _ h0, fromTrad_ok _ h1, fromTrad_err _ h2]
        rfl
    case pos =>
    by_cases h3 : validCode (numbers 3)
    case neg =>
      refine ⟨3, h3, ?_, ?_⟩
      · intro j hj
        fin_cases j
        · exact h0
        · exact h1
        · exact h2
        all_goals exact absurd hj (by decide)
      · unfold cast_reading_from_numbers
        rw [fromTrad_ok _ h0, fromTrad_ok _ h1, fromTrad_ok _ h2, fromTrad_err _ h3]
        rfl
    case pos =>
    by_cases h4 : validCode (numbers 4)
    case neg =>
      refine ⟨4, h4, ?_, ?_⟩
      · intro j hj
        fin_cases j
        · exact h0
        · exact h1
        · exact h2
        · exact h3
        all_goals exact absurd hj (by decide)
      · unfold cast_reading_from_numbers
        rw [fromTrad_ok _ h0, fromTrad_ok _ h1, fromTrad_ok _ h2, fromTrad_ok _ h3,
          fromTrad_err _ h4]
        rfl
    case pos =>
    by_cases h5 : validCode (numbers 5)
    case neg =>
      refine ⟨5, h5, ?_, ?_⟩
      · intro j hj
        fin_cases j
        · exact h0
        · exact h1
        · exact h2
        · exact h3
        · exact h4
        all_goals exact absurd hj (by decide)
      · unfold cast_reading_from_numbers
        rw [fromTrad_ok _ h0, fromTrad_ok _ h1, fromTrad_ok _ h2, fromTrad_ok _ h3,
          fromTrad_ok _ h4, fromTrad_err _ h5]
        rfl
    case pos =>
      exfalso
      apply h
      intro i
      fin_cases i <;> assumption

/-- Witness for C7 at the codes [7,8,5,6,7,8] (invalid code 5). -/
theorem claim_C7_witness :
    ∃ k : Fin 6, ¬validCode (c7_example_codes k) ∧
      (∀ j : Fin 6, j < k → validCode (c7_example_codes j)) ∧
      cast_reading_from_numbers c7_example_codes none =
        Except.error (IErr.InvalidLineCode (c7_example_codes k)) :=
  (claim_C7 c7_example_codes none).2 (by decide)

/-- Claim C8: when the (trimmed) input contains a transition separator but
the transition parse yields nothing (neither the numeric nor the glyph
sub-parse succeeds), the interpreter's result is exactly the result of the
subsequent resolution steps applied to the full trimmed text. -/
theorem claim_C8 (input : String)
    (hsep : contains_separator (rustTrim input.data) = true)
    (htry : try_parse_changing_hexagram (rustTrim input.data) = Except.ok none) :
    parse_input_and_create_reading input =
      interpret_subsequent_steps (rustTrim input.data) := by
  simp only [parse_input_and_create_reading, interpret_subsequent_steps]
  rw [htry]

/-- Witness for C8 at input "65->2" (separator present, 65 out of range,
neither side a glyph). -/
theorem claim_C8_witness :
    contains_separator (rustTrim ("65->2" : String).data) = true ∧
    try_parse_changing_hexagram (rustTrim ("65->2" : String).data) = Except.ok none ∧
    parse_input_and_create_reading "65->2" =
      interpret_subsequent_steps (rustTrim ("65->2" : String).data) :=
  ⟨by decide, by decide, claim_C8 "65->2" (by decide) (by decide)⟩

/-- Counterexample to C5: the interpreter resolves input "65" (and "0") to
the `UnrecognizedInput` error carrying the text, not to an `OutOfRange`
error carrying the value. -/
theorem claim_C5_counterexample :
    parse_input_and_create_reading "65" =
      Except.error (IErr.UnrecognizedInput "65") ∧
    parse_input_and_create_reading "65" ≠ Except.error (IErr.OutOfRange 65) ∧
    parse_input_and_create_reading "0" =
      Except.error (IErr.UnrecognizedInput "0") ∧
    parse_input_and_create_reading "0" ≠ Except.error (IErr.OutOfRange 0) := by
  refine ⟨by decide, by decide, by decide, by decide⟩

set_option maxRecDepth 100000 in
theorem c5check_true : c5check = true := by rfl

/-- Claim C5 as amended: for every u8 value outside [1,64], interpreting
its decimal numeral fails with the `UnrecognizedInput` error kind carrying
the input text (the source never constructs an `OutOfRange` error), and no
figure is produced. -/
theorem claim_C5 :
    ∀ id : Nat, id ≤ 255 → ¬(1 ≤ id ∧ id ≤ 64) →
      parse_input_and_create_reading (Nat.repr id) =
        Except.error (IErr.UnrecognizedInput (Nat.repr id)) := by
  intro id hle hrange
  have h := c5check_true
  unfold c5check at h
  rw [List.all_eq_true] at h
  have ha := h id (by rw [List.mem_range]; omega)
  simp only [] at ha
  rw [Bool.or_eq_true] at ha
  rcases ha with ha | ha
  · exact absurd (of_decide_eq_true ha) hrange
  · exact of_decide_eq_true ha

/-- Witness for C5 (amended) at input value 65. -/
theorem claim_C5_witness :
    parse_input_and_create_reading (Nat.repr 65) =
      Except.error (IErr.UnrecognizedInput (Nat.repr 65)) :=
  claim_C5 65 (by decide) (by decide)

end IChing
